import Mathlib

/-!
Verification of the natural-language specification of `mpqp`'s auxiliary
tooling (`src/mpqp/tools/circuit.py` and `src/mpqp/tools/display.py`)
against a shallow embedding of that code in Lean 4.

Complex floating-point scalars are modelled exactly, as pairs of rational
numbers (`CQ`); numpy matrices are modelled as functions `ℕ → ℕ → CQ`
together with an explicit dimension, mirroring how the Python code indexes
them.  Python exceptions are modelled with `Except`.
-/

/-- A complex scalar, modelled with exact rational real and imaginary
parts (`np.complex64` / Python `complex` values in the source). -/
@[ext] structure CQ where
  re : ℚ
  im : ℚ
deriving DecidableEq, Repr

instance : Zero CQ := ⟨⟨0, 0⟩⟩

instance : One CQ := ⟨⟨1, 0⟩⟩

instance : Add CQ := ⟨fun x y => ⟨x.re + y.re, x.im + y.im⟩⟩

instance : Mul CQ := ⟨fun x y => ⟨x.re * y.re - x.im * y.im, x.re * y.im + x.im * y.re⟩⟩

instance : Neg CQ := ⟨fun x => ⟨-x.re, -x.im⟩⟩

/-- `np.eye(n, dtype=complex)`: the identity matrix (indices are meaningful
below the dimension of the enclosing expression). -/
def npEye (_n : ℕ) : ℕ → ℕ → CQ := fun i j => if i = j then 1 else 0

/-- `np.kron A B` where `B` is a `q × q` matrix:
`np.kron(A, B)[i, j] = A[i / q, j / q] * B[i % q, j % q]`. -/
def npKron (q : ℕ) (A B : ℕ → ℕ → CQ) : ℕ → ℕ → CQ :=
  fun i j => A (i / q) (j / q) * B (i % q) (j % q)

/-- Partial sums of `np.dot`'s inner products. -/
def dotAux (A B : ℕ → ℕ → CQ) (i j : ℕ) : ℕ → CQ
  | 0 => 0
  | k + 1 => dotAux A B i j k + A i k * B k j

/-- `np.dot` for two `N × N` matrices. -/
def matMul (N : ℕ) (A B : ℕ → ℕ → CQ) : ℕ → ℕ → CQ := fun i j => dotAux A B i j N

/-- The `2 × 2` matrix of a single-qubit gate (`gate.to_matrix()`). -/
structure Mat2 where
  e00 : CQ
  e01 : CQ
  e10 : CQ
  e11 : CQ
deriving DecidableEq, Repr

/-- A `Mat2` viewed through numpy indexing. -/
def Mat2.fn (m : Mat2) : ℕ → ℕ → CQ := fun r c =>
  if r = 0 then (if c = 0 then m.e00 else m.e01)
  else (if c = 0 then m.e10 else m.e11)

/-- An entry of `QCircuit.instructions` as `compute_expected_matrix` sees it:
a single-qubit gate (with its matrix and target), a gate that is not a
`SingleQubitGate` (only its printable class name matters), or an
instruction that is not a `Gate` at all (barrier, measurement, ...). -/
inductive Instruction
  | singleGate (m : Mat2) (target : ℕ)
  | multiGate (name : String)
  | nonGate (name : String)
deriving DecidableEq, Repr

/-- `isinstance(instruction, Gate)`. -/
def Instruction.isGate : Instruction → Bool
  | .nonGate _ => false
  | _ => true

/-- A `Gate` that is not a `SingleQubitGate`. -/
def Instruction.isMulti : Instruction → Bool
  | .multiGate _ => true
  | _ => false

/-- The circuit object passed to `compute_expected_matrix`. -/
structure QCircuit where
  nbQubits : ℕ
  instructions : List Instruction
deriving DecidableEq, Repr

/-- Lines 185-191 of `circuit.py`:
`np.kron(np.eye(2**index), np.kron(gate_matrix, np.eye(2**(nb_qubits-index-1))))`
(the initial `matrix = np.eye(...)` on line 185 is immediately overwritten). -/
def gateExpand (n index : ℕ) (m : Mat2) : ℕ → ℕ → CQ :=
  npKron (2 * 2 ^ (n - index - 1))
    (npEye (2 ^ index))
    (npKron (2 ^ (n - index - 1)) m.fn (npEye (2 ^ (n - index - 1))))

/-- The loop of `compute_expected_matrix` (lines 180-193): iterate over the
gates, raising `ValueError` on a gate that is not a `SingleQubitGate`, and
otherwise right-multiplying the accumulator by the tensor-expanded gate
matrix.  `nonGate` never occurs in the traversed list (it is filtered out
before the loop) and leaves the accumulator unchanged. -/
def cemFold (n : ℕ) : List Instruction → (ℕ → ℕ → CQ) → Except String (ℕ → ℕ → CQ)
  | [], acc => .ok acc
  | .singleGate m t :: tl, acc => cemFold n tl (matMul (2 ^ n) acc (gateExpand n t m))
  | .multiGate name :: _, _ =>
    .error ("Unsupported gate: " ++ name ++ " only SingleQubitGate can be computed for now")
  | .nonGate _ :: tl, acc => cemFold n tl acc

/-- `compute_expected_matrix` (lines 153-195): filter the instructions to
the `Gate`s, then run the loop over them in reverse order starting from the
identity.  The final `np.vectorize(N)(result_matrix).astype(complex)` is a
numeric no-op in the exact model. -/
def computeExpectedMatrix (c : QCircuit) : Except String (ℕ → ℕ → CQ) :=
  cemFold c.nbQubits ((c.instructions.filter Instruction.isGate).reverse)
    (npEye (2 ^ c.nbQubits))

/-- The single-qubit gates of the circuit, in instruction order, as
(matrix, target) pairs. -/
def gatesOf (c : QCircuit) : List (Mat2 × ℕ) :=
  c.instructions.filterMap fun inst =>
    match inst with
    | .singleGate m t => some (m, t)
    | _ => none

/-- The tensor expansion named by the claim:
`I_{2^t} ⊗ G ⊗ I_{2^(n-t-1)}`, written out entrywise (this is the
spec-side definition, to be compared with `gateExpand`). -/
def specExpand (n t : ℕ) (m : Mat2) : ℕ → ℕ → CQ :=
  fun i j =>
    let p := 2 ^ (n - t - 1)
    npEye (2 ^ t) (i / (2 * p)) (j / (2 * p)) *
      m.fn (i / p % 2) (j / p % 2) *
      npEye p (i % p) (j % p)

/-- Product of a list of `N × N` matrices, in list order, starting from the
identity. -/
def matListProd (N : ℕ) (Ms : List (ℕ → ℕ → CQ)) : ℕ → ℕ → CQ :=
  Ms.foldl (matMul N) (npEye N)

/-- The matrix described by the claim about `compute_expected_matrix`:
the product, taken in reverse instruction order, of each gate's matrix
tensor-expanded to full circuit width (spec-side definition). -/
def specProductMatrix (n : ℕ) (gs : List (Mat2 × ℕ)) : ℕ → ℕ → CQ :=
  matListProd (2 ^ n) ((gs.map fun g => specExpand n g.2 g.1).reverse)

/-- The instruction form of a (matrix, target) pair. -/
def toSinglePair : Instruction → Option (Mat2 × ℕ) :=
  fun inst =>
    match inst with
    | .singleGate m t => some (m, t)
    | _ => none

/-- A concrete Pauli-X gate matrix, used as a test vehicle. -/
def xMat : Mat2 := ⟨0, 1, 1, 0⟩

/-- A concrete one-qubit circuit with a single X gate. -/
def oneQubitXCircuit : QCircuit := ⟨1, [.singleGate xMat 0]⟩

/-- A Python exception, as far as these utilities distinguish them. -/
inductive PyError
  | valueError (msg : String)
  | nameError (msg : String)
  | overflowError (msg : String)
deriving DecidableEq, Repr

/-- Modelled from the spec: the native gate kinds offered to
`random_circuit`.  The native-gate class hierarchy lives in
`mpqp.core.instruction.gates.native_gates`, which is not included under
`src/`; the kinds and their classification below follow the spec's data
model (arity class, parameter set) and the classification used by
`src/mpqp/tools/circuit.py` itself (its imports and the branches on lines
117-149, including the assertion on line 132 that the single-qubit
parametrized rotation classes are `Rx`, `Ry`, `Rz`, `P`). -/
inductive GateClass
  | Id | X | Y | Z | H | S | T | P | Rx | Ry | Rz | Rk | U
  | SWAP | CNOT | CZ | CRk | TOF
deriving DecidableEq, BEq, Repr

/-- Modelled from the spec: `issubclass(gate, SingleQubitGate)`.  `SWAP`,
`CNOT`, `CZ`, `CRk` are two-qubit kinds and `TOF` is the three-qubit kind;
all other native kinds act on a single qubit. -/
def GateClass.isSingleQubit : GateClass → Bool
  | .SWAP | .CNOT | .CZ | .CRk | .TOF => false
  | _ => true

/-- Modelled from the spec: `issubclass(gate, ParametrizedGate)` — the
kinds carrying a parameter (angles or an integer level). -/
def GateClass.isParametrized : GateClass → Bool
  | .P | .Rx | .Ry | .Rz | .Rk | .U | .CRk => true
  | _ => false

/-- `issubclass(gate_class, RotationGate)` for the single-qubit
parametrized kinds that are neither `U` nor `Rk`: per the assertion on
line 132 of `circuit.py`, these are `Rx`, `Ry`, `Rz` and `P`. -/
def GateClass.isRotationKind : GateClass → Bool
  | .Rx | .Ry | .Rz | .P => true
  | _ => false

/-- A gate instance added to the randomly generated circuit. -/
inductive RGate
  | single (g : GateClass) (params : List ℚ) (target : ℕ)
  | controlled (g : GateClass) (params : List ℚ) (controls : List ℕ) (target : ℕ)
deriving DecidableEq, Repr

/-- The circuit built by `random_circuit`. -/
structure RandCircuit where
  nbQubits : ℕ
  gates : List RGate
deriving DecidableEq, Repr

/-- The random generator, modelled as an oracle: a stream of natural
numbers (used for index and integer draws, reduced by `%` into range) and
a stream of rationals (used for `rng.uniform` draws).  Each call of the
generator consumes the next position of the stream. -/
structure PyRng where
  nats : ℕ → ℕ
  reals : ℕ → ℚ

/-- `rng.choice(l)`: numpy raises `ValueError` on an empty candidate list,
and otherwise returns an element of `l` (chosen here by the oracle's `k`-th
natural, reduced modulo the length). -/
def rngChoice (r : PyRng) (k : ℕ) {α : Type} (l : List α) : Except PyError α :=
  match l with
  | [] => .error (.valueError "a must be greater than 0 unless no samples are taken")
  | a :: tl => .ok ((a :: tl).getD (r.nats k % (a :: tl).length) a)

/-- `rng.integers(lo, hi)`: a draw in `[lo, hi)`. -/
def rngIntegers (r : PyRng) (k lo hi : ℕ) : ℕ := lo + r.nats k % (hi - lo)

/-- One iteration of the generation loop of `random_circuit`
(lines 114-149 of `circuit.py`), threading the oracle position `k`.

Two of its branches raise `NameError` when executed: lines 131 and 142
evaluate `TYPE_CHECKING`, a name never imported by
`src/mpqp/tools/circuit.py` (its only `typing` imports are `Optional` and
`Union`), so drawing a rotation kind (`Rx`, `Ry`, `Rz`, `P`) or `CRk`
raises `NameError` at run time (line 133 would likewise hit the never
imported `random`).  The branch on lines 135-136 adds a gate and then
unconditionally raises a bare `ValueError`. -/
def rcStep (r : PyRng) (gcs : List GateClass) (n : ℕ) (st : ℕ × List RGate) :
    Except PyError (ℕ × List RGate) := do
  let (k, gs) := st
  let gc ← rngChoice r k gcs
  let target ← rngChoice r (k + 1) (List.range n)
  if gc.isSingleQubit then
    if gc.isParametrized then
      if gc = GateClass.U then
        .ok (k + 5, gs ++ [.single .U [r.reals (k + 2), r.reals (k + 3), r.reals (k + 4)] target])
      else if gc = GateClass.Rk then
        .ok (k + 3, gs ++ [.single .Rk [(rngIntegers r (k + 2) 1 10 : ℕ)] target])
      else if gc.isRotationKind then
        .error (.nameError "name TYPE_CHECKING is not defined")
      else
        .error (.valueError "")
    else
      .ok (k + 2, gs ++ [.single gc [] target])
  else do
    let control ← rngChoice r (k + 2) ((List.range n).filter (fun q => q != target))
    if gc.isParametrized then
      .error (.nameError "name TYPE_CHECKING is not defined")
    else if gc = GateClass.TOF then do
      let c2 ← rngChoice r (k + 3)
        ((List.range n).filter (fun q => q != target && q != control))
      .ok (k + 4, gs ++ [.controlled .TOF [] [control, c2] target])
    else
      .ok (k + 3, gs ++ [.controlled gc [] [control] target])

/-- The `for _ in range(nb_gates)` loop of `random_circuit`. -/
def rcLoop (r : PyRng) (gcs : List GateClass) (n : ℕ) :
    ℕ → ℕ × List RGate → Except PyError (ℕ × List RGate)
  | 0, st => .ok st
  | g + 1, st => do
    let st2 ← rcStep r gcs n st
    rcLoop r gcs n g st2

/-- `random_circuit` (lines 26-150 of `circuit.py`): default the gate
count by a draw when absent, validate the qubit count against the
candidate gate arities (raising `ValueError` before the generation loop),
then run the loop.  The `gate_classes is None` defaulting is left to the
caller since `NATIVE_GATES` lives outside `src/`. -/
def randomCircuit (gcs : List GateClass) (nbQubits : ℕ) (nbGates : Option ℕ)
    (r : PyRng) : Except PyError RandCircuit :=
  let st0 : ℕ × ℕ :=
    match nbGates with
    | some g => (g, 0)
    | none => (rngIntegers r 0 5 10, 1)
  if gcs.any (fun g =>
      !g.isSingleQubit &&
        ((g == GateClass.TOF && decide (nbQubits ≤ 2)) || decide (nbQubits ≤ 1))) then
    .error (.valueError "number of qubits too low for this gates")
  else
    (rcLoop r gcs nbQubits st0.1 (st0.2, [])).map fun st => ⟨nbQubits, st.2⟩

/-- A concrete deterministic oracle. -/
def zeroRng : PyRng := ⟨fun _ => 0, fun _ => 0⟩

/-- Round-half-to-even on the rationals (the rounding mode of `np.round`). -/
def roundHalfEven (x : ℚ) : ℤ :=
  let f := ⌊x⌋
  let rem := x - (f : ℚ)
  if rem < 1 / 2 then f
  else if 1 / 2 < rem then f + 1
  else if f % 2 = 0 then f else f + 1

/-- `np.round(x, d)`: round to `d` decimal places, ties to even. -/
def qRound (d : ℕ) (x : ℚ) : ℚ := (roundHalfEven (x * 10 ^ d) : ℚ) / 10 ^ d

/-- `np.round` on a complex value rounds both components. -/
def roundC (d : ℕ) (z : CQ) : CQ := ⟨qRound d z.re, qRound d z.im⟩

/-- The dynamic type of the values flowing through `with_sign`:
`_remove_null_imag` returns `np.complex64 | np.float32 | int`, and `str`
renders each differently. -/
inductive PyNum
  | ic (n : ℤ)
  | fl (x : ℚ)
  | cx (re im : ℚ)
deriving DecidableEq, Repr

/-- `_remove_unnecessary_decimals` (display.py lines 58-62): an
integer-valued float collapses to `int`, anything else stays a float. -/
def rud (x : ℚ) : PyNum := if x.den = 1 then .ic x.num else .fl x

/-- `_remove_null_imag` (display.py lines 51-55): round to 3 decimals;
keep the complex value if an imaginary part remains, otherwise collapse
the real part. -/
def rni (v : CQ) : PyNum :=
  let r := roundC 3 v
  if r.im ≠ 0 then .cx r.re r.im else rud r.re

/-- Python `rounded == 1` across the three dynamic types. -/
def PyNum.eqOne : PyNum → Bool
  | .ic n => n == 1
  | .fl x => x == 1
  | .cx re im => re == 1 && im == 0

/-- Python `rounded.real` (an `int` or float is its own real part). -/
def PyNum.realPart : PyNum → ℚ
  | .ic n => (n : ℚ)
  | .fl x => x
  | .cx re _ => re

/-- Python `rounded.imag` (zero on `int` and float values). -/
def PyNum.imagPart : PyNum → ℚ
  | .cx _ im => im
  | .ic _ => 0
  | .fl _ => 0

/-- Python `abs(rounded)` as `with_sign` uses it: it is only applied under
`rounded.real == 0`, where the modulus of a complex value equals the
absolute value of its imaginary part. -/
def PyNum.absRe0 : PyNum → ℚ
  | .ic n => |(n : ℚ)|
  | .fl x => |x|
  | .cx _ im => |im|

/-- Python `-rounded`. -/
def PyNum.neg : PyNum → PyNum
  | .ic n => .ic (-n)
  | .fl x => .fl (-x)
  | .cx re im => .cx (-re) (-im)

/-- Fuel-bounded count of decimal digits needed for a terminating decimal
expansion. -/
def decCount : ℕ → ℚ → ℕ
  | 0, _ => 0
  | fuel + 1, x => if x.den = 1 then 0 else decCount fuel (x * 10) + 1

/-- Render a natural number left-padded with zeros to `d` digits. -/
def zeroPad (d v : ℕ) : String :=
  let s := toString v
  String.mk (List.replicate (d - s.length) '0') ++ s

/-- Decimal rendering of a nonnegative rational with terminating decimal
expansion (`str` of a Python float such as `1.2345679`). -/
def ratStrNN (x : ℚ) : String :=
  let d := max 1 (decCount 30 x)
  let n := (x * 10 ^ d).num.toNat
  toString (n / 10 ^ d) ++ "." ++ zeroPad d (n % 10 ^ d)

/-- `str` of a Python float (decimal notation with a sign). -/
def ratStr (x : ℚ) : String :=
  if x < 0 then "-" ++ ratStrNN (-x) else ratStrNN x

/-- `str` of an integer-valued or fractional numeric part inside a numpy
complex rendering (integral values print without a decimal point). -/
def numStr (q : ℚ) : String := if q.den = 1 then toString q.num else ratStr q

/-- `str` of an `np.complex64` scalar: `"bj"` when the real part is zero,
`"(a+bj)"` otherwise. -/
def complexStr (re im : ℚ) : String :=
  if re = 0 then numStr im ++ "j"
  else "(" ++ numStr re ++ (if im < 0 then "-" ++ numStr (-im) else "+" ++ numStr im) ++ "j)"

/-- Python `s.startswith(pre)`, decided on the character lists. -/
def pyStartsWith (s pre : String) : Bool := pre.toList.isPrefixOf s.toList

/-- Python `str` over the three dynamic numeric types. -/
def pyStr : PyNum → String
  | .ic n => toString n
  | .fl x => ratStr x
  | .cx re im => complexStr re im

/-- `with_sign` (display.py lines 27-48). -/
def withSign (v : CQ) : String :=
  let rounded := rni v
  if rounded.eqOne then "+ "
  else if rounded.realPart = 0 then
    (if 0 ≤ rounded.imagPart then "+ " else "- ") ++ pyStr (rud rounded.absRe0) ++ "j"
  else
    let s := pyStr rounded
    if pyStartsWith s "-" || pyStartsWith s "(-" then "- " ++ pyStr rounded.neg
    else "+ " ++ s

/-- `np.binary_repr(i, width)`: binary digits of `i`, zero-padded on the
left to `width`. -/
def binaryRepr (i width : ℕ) : String :=
  let ds := Nat.toDigits 2 i
  String.mk (List.replicate (width - ds.length) '0' ++ ds)

/-- Python `s[2:]`: drop the first two characters. -/
def pySlice2 (s : String) : String := String.mk (s.toList.drop 2)

/-- A bounded-fuel floor logarithm in base 2. -/
def floorLog2Fuel : ℕ → ℕ → ℕ
  | 0, _ => 0
  | fuel + 1, n => if 2 ≤ n then floorLog2Fuel fuel (n / 2) + 1 else 0

/-- `int(np.log2(n))` for `n ≥ 1`: the floor logarithm in base 2 (written
with structural fuel so it evaluates by reduction). -/
def intLog2 (n : ℕ) : ℕ := floorLog2Fuel n n

/-- A numpy array: its shape, and its elements flattened.  For the rank-1
arrays `state_vector_ket_shape` accepts, Python's `len` is the leading
dimension, which equals the length of the flat data. -/
structure NDArray where
  shape : List ℕ
  data : List CQ

/-- The ket terms of the non-negligible components (display.py lines
18-23): components whose 3-decimal rounding is zero are skipped. -/
def ketTerms (data : List CQ) (n : ℕ) : List String :=
  (data.enum.filter fun p => decide (roundC 3 p.2 ≠ 0)).map
    fun p => withSign p.2 ++ "|" ++ binaryRepr p.1 n ++ "⟩"

/-- `state_vector_ket_shape` (display.py lines 11-24).  The `len = 0` case
models `int(np.log2(0))`, which is `int(-inf)` and raises
`OverflowError` before the power-of-two validation can run. -/
def stateVectorKetShape (sv : NDArray) : Except PyError String :=
  if sv.shape.length ≠ 1 then
    .error (.valueError "Input state should be a vector (1 dimensional matrix).")
  else if sv.data.length = 0 then
    .error (.overflowError "cannot convert float infinity to integer")
  else
    let n := intLog2 sv.data.length
    if 2 ^ n ≠ sv.data.length then
      .error (.valueError "Input state should have a power of 2 size")
    else
      .ok (pySlice2 (String.intercalate " " (ketTerms sv.data n)))

/-- One element of `clean_1D_array` (display.py lines 97-116): round both
parts, collapse integral parts, drop the zero components, and join. -/
def cleanElement (d : ℕ) (z : CQ) : String :=
  let re := qRound d z.re
  let im := qRound d z.im
  let reStr : String :=
    if re = 0 ∧ im ≠ 0 then ""
    else if re.den = 1 then toString re.num else ratStr re
  let imStr : String :=
    if im = 0 then ""
    else
      let base := (if im.den = 1 then toString im.num else ratStr im) ++ "j"
      if reStr ≠ "" ∧ ¬ pyStartsWith base "-" then "+" ++ base else base
  reStr ++ imStr

/-- `clean_1D_array` (display.py lines 65-118) at rounding precision `rd`. -/
def cleanOneDArray (rd : ℕ) (array : List CQ) : String :=
  "[" ++ String.intercalate ", " (array.map (cleanElement rd)) ++ "]"

/-- `clean_1D_array` with its default `round=7`. -/
def cleanOneDArrayDefault (array : List CQ) : String := cleanOneDArray 7 array

/-- `compute_expected_matrix`-style error classification for
`state_vector_ket_shape`: did the call raise a `ValueError`? -/
def isValueError {α : Type} : Except PyError α → Bool
  | .error (.valueError _) => true
  | _ => false

/-- An error raised by the external transpiler, identified by its message
(`str(e)` in the source). -/
structure QiskitError where
  msg : String
deriving DecidableEq, Repr

/-- The result of a successful external transpilation: an opaque rendering
of the produced circuit and its `global_phase`. -/
structure Transpiled where
  gatesRepr : String
  globalPhase : ℚ
deriving DecidableEq, Repr

/-- Does `pat` occur as a prefix-at-some-suffix of `s`? -/
def charsContains (pat : List Char) : List Char → Bool
  | [] => pat.isPrefixOf []
  | c :: tl => pat.isPrefixOf (c :: tl) || charsContains pat tl

/-- Python substring membership `pat in s`. -/
def pyContains (s pat : String) : Bool := charsContains pat.toList s.toList

/-- Modelled from the spec: the two external collaborators of
`replace_custom_gate`.  `transp` is the external transpilation routine
(qiskit `transpile` with basis `['u', 'cx']`, an opaque dependency per the
spec), as a function of the custom unitary operand it is given (the source
mutates `custom_unitary.operation.params[0]` before retrying, so the
operand determines the circuit passed to `transpile`).  `closest_unitary`
is `mpqp.tools.maths.closest_unitary`, which is not under `src/`; per the
spec's glossary it maps a matrix to the nearest unitary by a matrix norm,
and is modelled as an opaque substitution map. -/
structure DecompEnv (α : Type) where
  transp : α → Except QiskitError Transpiled
  closest_unitary : α → α

/-- `replace_custom_gate` (circuit.py lines 198-236): transpile; on a
`QiskitError` whose message mentions `TwoQubitWeylDecomposition`, replace
the operand by its closest unitary and retry once (a failure of the retry
propagates); any other error propagates; on success return the transpiled
circuit together with its global phase. -/
def replaceCustomGate {α : Type} (env : DecompEnv α) (u : α) :
    Except QiskitError (Transpiled × ℚ) :=
  match env.transp u with
  | .ok t => .ok (t, t.globalPhase)
  | .error e =>
    if pyContains e.msg "TwoQubitWeylDecomposition" then
      match env.transp (env.closest_unitary u) with
      | .ok t => .ok (t, t.globalPhase)
      | .error e2 => .error e2
    else .error e

/-- A concrete decomposition environment whose first transpilation fails
with the singular-decomposition message. -/
def weylEnv : DecompEnv ℕ where
  transp := fun n =>
    if n = 0 then .error ⟨"Error in TwoQubitWeylDecomposition fidelity check"⟩
    else .ok ⟨"u cx", 1 / 2⟩
  closest_unitary := fun _ => 1

@[simp] theorem CQ.zero_re : (0 : CQ).re = 0 := rfl

@[simp] theorem CQ.zero_im : (0 : CQ).im = 0 := rfl

@[simp] theorem CQ.one_re : (1 : CQ).re = 1 := rfl

@[simp] theorem CQ.one_im : (1 : CQ).im = 0 := rfl

@[simp] theorem CQ.add_re (x y : CQ) : (x + y).re = x.re + y.re := rfl

@[simp] theorem CQ.add_im (x y : CQ) : (x + y).im = x.im + y.im := rfl

@[simp] theorem CQ.mul_re (x y : CQ) : (x * y).re = x.re * y.re - x.im * y.im := rfl

@[simp] theorem CQ.mul_im (x y : CQ) : (x * y).im = x.re * y.im + x.im * y.re := rfl

theorem CQ.mulAssoc (a b c : CQ) : a * b * c = a * (b * c) := by
  ext <;> simp <;> ring

theorem gateExpand_eq_specExpand (n t : ℕ) (m : Mat2) :
    gateExpand n t m = specExpand n t m := by
  funext i j
  unfold gateExpand specExpand npKron
  have hdvd : (2 ^ (n - t - 1) : ℕ) ∣ 2 * 2 ^ (n - t - 1) := ⟨2, by ring⟩
  have hi1 : i % (2 * 2 ^ (n - t - 1)) / 2 ^ (n - t - 1) = i / 2 ^ (n - t - 1) % 2 := by
    rw [Nat.mul_comm 2 (2 ^ (n - t - 1))]
    exact Nat.mod_mul_right_div_self i (2 ^ (n - t - 1)) 2
  have hj1 : j % (2 * 2 ^ (n - t - 1)) / 2 ^ (n - t - 1) = j / 2 ^ (n - t - 1) % 2 := by
    rw [Nat.mul_comm 2 (2 ^ (n - t - 1))]
    exact Nat.mod_mul_right_div_self j (2 ^ (n - t - 1)) 2
  have hi2 : i % (2 * 2 ^ (n - t - 1)) % 2 ^ (n - t - 1) = i % 2 ^ (n - t - 1) :=
    Nat.mod_mod_of_dvd i hdvd
  have hj2 : j % (2 * 2 ^ (n - t - 1)) % 2 ^ (n - t - 1) = j % 2 ^ (n - t - 1) :=
    Nat.mod_mod_of_dvd j hdvd
  simp only [hi1, hj1, hi2, hj2]
  exact (CQ.mulAssoc _ _ _).symm

theorem cemFold_error_iff (n : ℕ) (l : List Instruction) (acc : ℕ → ℕ → CQ) :
    (cemFold n l acc).isOk = false ↔ ∃ x ∈ l, x.isMulti = true := by
  induction l generalizing acc with
  | nil => simp [cemFold, Except.isOk, Except.toBool]
  | cons hd tl ih =>
    cases hd with
    | singleGate m t => simp [cemFold, ih, Instruction.isMulti]
    | multiGate name => simp [cemFold, Except.isOk, Except.toBool, Instruction.isMulti]
    | nonGate name => simp [cemFold, ih, Instruction.isMulti]

theorem cemFold_eq_foldl (n : ℕ) (l : List Instruction) (acc : ℕ → ℕ → CQ)
    (h : ∀ x ∈ l, x.isMulti = false) :
    cemFold n l acc = .ok (l.foldl
      (fun A inst =>
        match inst with
        | .singleGate m t => matMul (2 ^ n) A (gateExpand n t m)
        | _ => A) acc) := by
  induction l generalizing acc with
  | nil => simp [cemFold]
  | cons hd tl ih =>
    cases hd with
    | singleGate m t =>
      simpa [cemFold] using ih _ (fun x hx => h x (List.mem_cons_of_mem _ hx))
    | multiGate name =>
      exact absurd (h _ (List.mem_cons_self _ _)) (by simp [Instruction.isMulti])
    | nonGate name =>
      simpa [cemFold] using ih _ (fun x hx => h x (List.mem_cons_of_mem _ hx))

theorem gatesOf_eq_filterMap (c : QCircuit) :
    gatesOf c = c.instructions.filterMap toSinglePair := rfl

theorem filter_isGate_of_no_multi (l : List Instruction)
    (h : ∀ x ∈ l, x.isMulti = false) :
    l.filter Instruction.isGate =
      (l.filterMap toSinglePair).map (fun p => .singleGate p.1 p.2) := by
  induction l with
  | nil => simp
  | cons hd tl ih =>
    have htl := ih (fun x hx => h x (List.mem_cons_of_mem _ hx))
    cases hd with
    | singleGate m t =>
      simp [List.filter, List.filterMap, Instruction.isGate, toSinglePair, htl]
    | multiGate name =>
      exact absurd (h _ (List.mem_cons_self _ _)) (by simp [Instruction.isMulti])
    | nonGate name =>
      simp [List.filter, List.filterMap, Instruction.isGate, toSinglePair, htl]

/-- C4: `compute_expected_matrix` raises exactly on the circuits that
contain a gate that is not a single-qubit gate: the computation fails if
and only if some instruction of the circuit is a non-single-qubit gate. -/
theorem compute_expected_matrix_raises_iff_multi (c : QCircuit) :
    (computeExpectedMatrix c).isOk = false ↔
      ∃ inst ∈ c.instructions, inst.isMulti = true := by
  unfold computeExpectedMatrix
  rw [cemFold_error_iff]
  constructor
  · rintro ⟨x, hx, hm⟩
    exact ⟨x, (List.mem_filter.mp (List.mem_reverse.mp hx)).1, hm⟩
  · rintro ⟨x, hx, hm⟩
    refine ⟨x, List.mem_reverse.mpr (List.mem_filter.mpr ⟨hx, ?_⟩), hm⟩
    cases x <;> simp_all [Instruction.isGate, Instruction.isMulti]

/-- C2: on a circuit whose gates are all single-qubit, the result of
`compute_expected_matrix` is the product, in reverse instruction order,
of the gates' matrices tensor-expanded to full circuit width as
`I_{2^t} ⊗ G ⊗ I_{2^(n-t-1)}`. -/
theorem compute_expected_matrix_single_qubit_product (c : QCircuit)
    (h : ∀ inst ∈ c.instructions, inst.isMulti = false) :
    computeExpectedMatrix c = .ok (specProductMatrix c.nbQubits (gatesOf c)) := by
  unfold computeExpectedMatrix specProductMatrix matListProd
  rw [filter_isGate_of_no_multi _ h, ← List.map_reverse]
  rw [cemFold_eq_foldl]
  · rw [gatesOf_eq_filterMap, ← List.map_reverse, List.foldl_map, List.foldl_map]
    refine congrArg Except.ok (List.foldl_ext _ _ _ fun A p _ => ?_)
    show matMul _ A (gateExpand _ p.2 p.1) = matMul _ A (specExpand _ p.2 p.1)
    rw [gateExpand_eq_specExpand]
  · intro x hx
    rcases List.mem_map.mp hx with ⟨p, _, rfl⟩
    rfl

/-- Witness for C2 at a concrete single-qubit circuit. -/
theorem compute_expected_matrix_single_qubit_product_witness :
    (∀ inst ∈ oneQubitXCircuit.instructions, inst.isMulti = false) ∧
      computeExpectedMatrix oneQubitXCircuit =
        .ok (specProductMatrix oneQubitXCircuit.nbQubits (gatesOf oneQubitXCircuit)) :=
  ⟨by decide, compute_expected_matrix_single_qubit_product oneQubitXCircuit (by decide)⟩

/-- C10: `compute_expected_matrix` looks only at the gate instructions:
dropping the non-gate instructions does not change its result, and a
circuit whose instructions contain no gate at all yields the
`2^n × 2^n` identity matrix. -/
theorem compute_expected_matrix_ignores_non_gates :
    (∀ (n : ℕ) (instrs : List Instruction),
        computeExpectedMatrix ⟨n, instrs⟩ =
          computeExpectedMatrix ⟨n, instrs.filter Instruction.isGate⟩) ∧
    (∀ (n : ℕ) (instrs : List Instruction),
        (∀ inst ∈ instrs, inst.isGate = false) →
        computeExpectedMatrix ⟨n, instrs⟩ = .ok (npEye (2 ^ n))) := by
  constructor
  · intro n instrs
    unfold computeExpectedMatrix
    simp [List.filter_filter]
  · intro n instrs h
    unfold computeExpectedMatrix
    have : instrs.filter Instruction.isGate = [] := by
      rw [List.filter_eq_nil_iff]
      intro a ha
      simp [h a ha]
    simp only at this ⊢
    rw [this]
    rfl

/-- Witness for C10: a circuit holding only a barrier yields the identity. -/
theorem compute_expected_matrix_ignores_non_gates_witness :
    computeExpectedMatrix ⟨1, [.nonGate "barrier"]⟩ = .ok (npEye (2 ^ 1)) :=
  compute_expected_matrix_ignores_non_gates.2 1 [.nonGate "barrier"] (by decide)

theorem rcStep_rx (r : PyRng) (st : ℕ × List RGate) :
    rcStep r [GateClass.Rx] 2 st =
      .error (.nameError "name TYPE_CHECKING is not defined") := by
  obtain ⟨k, gs⟩ := st
  unfold rcStep rngChoice
  have hr : List.range 2 = [0, 1] := by decide
  simp [hr, Nat.mod_one, Bind.bind, Except.bind, GateClass.isSingleQubit,
    GateClass.isParametrized, GateClass.isRotationKind]

/-- C1: evaluation of `random_circuit` at a valid pair refuting the claim
that it never raises: with the single-qubit rotation class `Rx` as the only
candidate and two qubits, every run raises `NameError`, because lines
131-133 of `circuit.py` use `TYPE_CHECKING` and `random` without importing
them — contradicting the function's own docstring (which documents only a
`ValueError` on too-few qubits) and its doctests (whose outputs contain
`Rz`, `Ry` and `P` gates). -/
theorem random_circuit_rotation_draw_raises (r : PyRng) :
    randomCircuit [GateClass.Rx] 2 (some 1) r =
      .error (.nameError "name TYPE_CHECKING is not defined") := by
  unfold randomCircuit
  rw [if_neg (by decide)]
  show (rcLoop r [GateClass.Rx] 2 (0 + 1) (0, [])).map _ = _
  rw [rcLoop]
  simp [rcStep_rx, Bind.bind, Except.bind, Except.map]

/-- C3: whenever the candidate set holds a multi-qubit gate class and the
qubit count is at most 1 (or holds the three-qubit `TOF` and the qubit
count is at most 2), `random_circuit` raises the validation `ValueError`
before generating any gate, returning no partially built circuit. -/
theorem random_circuit_low_qubit_raises (gcs : List GateClass) (n : ℕ)
    (ng : Option ℕ) (r : PyRng) (g : GateClass) (hmem : g ∈ gcs)
    (h : (g.isSingleQubit = false ∧ n ≤ 1) ∨ (g = GateClass.TOF ∧ n ≤ 2)) :
    randomCircuit gcs n ng r =
      .error (.valueError "number of qubits too low for this gates") := by
  unfold randomCircuit
  have hany : gcs.any (fun g =>
      !g.isSingleQubit &&
        ((g == GateClass.TOF && decide (n ≤ 2)) || decide (n ≤ 1))) = true := by
    rw [List.any_eq_true]
    refine ⟨g, hmem, ?_⟩
    rcases h with ⟨h1, h2⟩ | ⟨h1, h2⟩
    · simp [h1, h2]
    · subst h1
      simp [h2, GateClass.isSingleQubit]
      exact Or.inl (by decide)
  simp [hany]

/-- Witness for C3: requesting a CNOT on a one-qubit circuit raises. -/
theorem random_circuit_low_qubit_raises_witness :
    randomCircuit [GateClass.CNOT] 1 (some 3) zeroRng =
      .error (.valueError "number of qubits too low for this gates") :=
  random_circuit_low_qubit_raises _ _ _ _ GateClass.CNOT
    (List.mem_singleton.mpr rfl) (Or.inl (by decide))

theorem roundHalfEven_intCast (k : ℤ) : roundHalfEven (k : ℚ) = k := by
  unfold roundHalfEven
  norm_num

theorem qRound_intCast (d : ℕ) (k : ℤ) : qRound d (k : ℚ) = k := by
  unfold qRound
  have h : ((k : ℚ) * 10 ^ d) = ((k * 10 ^ d : ℤ) : ℚ) := by push_cast; ring
  rw [h, roundHalfEven_intCast]
  push_cast
  rw [mul_div_assoc, div_self (by positivity), mul_one]

theorem qRound_zero (d : ℕ) : qRound d 0 = 0 := by simpa using qRound_intCast d 0

theorem rud_intCast (k : ℤ) : rud (k : ℚ) = .ic k := by
  simp [rud, Rat.den_intCast, Rat.num_intCast]

theorem rni_intCast (k : ℤ) : rni ⟨(k : ℚ), 0⟩ = .ic k := by
  simp [rni, roundC, qRound_intCast, qRound_zero, rud_intCast]

theorem withSign_one : withSign ⟨1, 0⟩ = "+ " := by
  have h := rni_intCast 1
  push_cast at h
  simp [withSign, h, PyNum.eqOne]

theorem withSign_neg_two : withSign ⟨-2, 0⟩ = "- 2" := by
  have h := rni_intCast (-2)
  push_cast at h
  simp only [withSign, h, PyNum.eqOne, PyNum.realPart, PyNum.neg, pyStr]
  norm_num
  rfl

theorem rni_zero_three : rni ⟨0, 3⟩ = .cx 0 3 := by
  have h3 : qRound 3 (3 : ℚ) = 3 := by simpa using qRound_intCast 3 3
  simp [rni, roundC, qRound_zero, h3]

theorem withSign_three_j : withSign ⟨0, 3⟩ = "+ 3j" := by
  have hr : rud (3 : ℚ) = .ic 3 := by
    have h := rud_intCast 3
    push_cast at h
    exact h
  simp only [withSign, rni_zero_three, PyNum.eqOne, PyNum.realPart, PyNum.imagPart,
    PyNum.absRe0, pyStr]
  norm_num [hr]
  rfl

/-- C8: `with_sign` renders `1` as a bare sign, an integer-valued negative
real as `- 2`, a purely imaginary value as `+ 3j`, and in general always
begins its output with an explicit `"+ "` or `"- "` sign. -/
theorem with_sign_examples :
    withSign ⟨1, 0⟩ = "+ " ∧ withSign ⟨-2, 0⟩ = "- 2" ∧ withSign ⟨0, 3⟩ = "+ 3j" ∧
    ∀ v : CQ, (∃ t, withSign v = "+ " ++ t) ∨ (∃ t, withSign v = "- " ++ t) := by
  refine ⟨withSign_one, withSign_neg_two, withSign_three_j, fun v => ?_⟩
  by_cases h1 : (rni v).eqOne = true
  · exact Or.inl ⟨"", by simp [withSign, h1]⟩
  · by_cases h2 : (rni v).realPart = 0
    · by_cases h3 : 0 ≤ (rni v).imagPart
      · exact Or.inl ⟨pyStr (rud (rni v).absRe0) ++ "j", by
          simp [withSign, h1, h2, h3, String.append_assoc]⟩
      · exact Or.inr ⟨pyStr (rud (rni v).absRe0) ++ "j", by
          simp [withSign, h1, h2, h3, String.append_assoc]⟩
    · by_cases h4 :
        (pyStartsWith (pyStr (rni v)) "-" || pyStartsWith (pyStr (rni v)) "(-") = true
      · exact Or.inr ⟨pyStr (rni v).neg, by simp [withSign, h1, h2, h4]⟩
      · exact Or.inl ⟨pyStr (rni v), by simp [withSign, h1, h2, h4]⟩

theorem roundC3_cq_one : roundC 3 (⟨1, 0⟩ : CQ) = ⟨1, 0⟩ := by
  have h := qRound_intCast 3 1
  push_cast at h
  simp [roundC, h, qRound_zero]

theorem roundC3_cq_zero : roundC 3 (0 : CQ) = 0 := by
  have h : roundC 3 (0 : CQ) = ⟨qRound 3 0, qRound 3 0⟩ := rfl
  rw [h, qRound_zero]
  rfl

theorem ketTerms_eval : ketTerms [⟨1, 0⟩, 0, 0, 0] 2 = ["+ |00⟩"] := by
  simp only [ketTerms, List.enum, List.enumFrom, List.filter, roundC3_cq_one, roundC3_cq_zero]
  norm_num
  rw [show (!decide ((⟨1, 0⟩ : CQ) = 0)) = true from by decide]
  simp only [List.map, withSign_one]
  rfl

theorem svks_basis_eval :
    stateVectorKetShape ⟨[4], [⟨1, 0⟩, 0, 0, 0]⟩ = .ok "|00⟩" := by
  unfold stateVectorKetShape
  norm_num
  rw [show intLog2 4 = 2 from rfl]
  rw [ketTerms_eval]
  rfl

/-- C6 counterexample: on the 2-qubit basis state `[1,0,0,0]`
`state_vector_ket_shape` does not return `"+ |00⟩"` — the code strips the
leading sign with `[2:]` (display.py line 24). -/
theorem state_vector_ket_shape_basis_counterexample :
    stateVectorKetShape ⟨[4], [⟨1, 0⟩, 0, 0, 0]⟩ ≠ .ok "+ |00⟩" := by
  rw [svks_basis_eval]
  intro h
  exact absurd (Except.ok.inj h) (by decide)

/-- C6 amended: on the 2-qubit basis state `[1,0,0,0]`
`state_vector_ket_shape` returns `"|00⟩"` (the leading `"+ "` of the first
term is stripped by the final `[2:]`). -/
theorem state_vector_ket_shape_basis_amended :
    stateVectorKetShape ⟨[4], [⟨1, 0⟩, 0, 0, 0]⟩ = .ok "|00⟩" :=
  svks_basis_eval

theorem floorLog2Fuel_eq_log (fuel : ℕ) :
    ∀ n : ℕ, n ≤ fuel → floorLog2Fuel fuel n = Nat.log 2 n := by
  induction fuel with
  | zero =>
    intro n hn
    interval_cases n
    simp [floorLog2Fuel, Nat.log_zero_right]
  | succ fuel ih =>
    intro n hn
    unfold floorLog2Fuel
    by_cases h2 : 2 ≤ n
    · rw [if_pos h2]
      have hdiv : n / 2 < n := Nat.div_lt_self (by omega) (by omega)
      rw [ih (n / 2) (by omega)]
      have hpos : 0 < Nat.log 2 n := Nat.log_pos (by norm_num) h2
      rw [Nat.log_div_base]
      omega
    · rw [if_neg h2]
      rw [Nat.log_eq_zero_iff.mpr (Or.inl (by omega))]

theorem intLog2_eq_log (n : ℕ) : intLog2 n = Nat.log 2 n :=
  floorLog2Fuel_eq_log n n le_rfl

theorem intLog2_two_pow (k : ℕ) : intLog2 (2 ^ k) = k := by
  rw [intLog2_eq_log, Nat.log_pow (by norm_num)]

theorem enumFrom_filter_length (q : CQ → Bool) :
    ∀ (l : List CQ) (i : ℕ),
      ((List.enumFrom i l).filter fun p => q p.2).length = (l.filter q).length := by
  intro l
  induction l with
  | nil => intro i; rfl
  | cons a tl ih =>
    intro i
    simp only [List.enumFrom, List.filter]
    cases hq : q a <;> simp [hq, ih (i + 1)]

theorem ketTerms_length (data : List CQ) (n : ℕ) :
    (ketTerms data n).length = (data.filter fun v => decide (roundC 3 v ≠ 0)).length := by
  unfold ketTerms
  rw [List.length_map, List.enum]
  exact enumFrom_filter_length (fun v => decide (roundC 3 v ≠ 0)) data 0

/-- C7 counterexample: the claimed equivalence "raises a validation error
iff the input is not 1-D or its length is not a power of two" fails at the
empty 1-D state vector: its length 0 is not a power of two, yet the code
raises `OverflowError` (from `int(np.log2(0))`), not `ValueError`. -/
theorem state_vector_ket_shape_empty_counterexample :
    ¬ ((isValueError (stateVectorKetShape ⟨[0], ([] : List CQ)⟩) = true) ↔
        (([0] : List ℕ).length ≠ 1 ∨ ¬ ∃ k, ([] : List CQ).length = 2 ^ k)) := by
  intro h
  have h0 : ¬ ∃ k, ([] : List CQ).length = 2 ^ k := by
    rintro ⟨k, hk⟩
    simp only [List.length_nil] at hk
    have := Nat.one_le_two_pow (n := k)
    omega
  have h1 := h.mpr (Or.inr h0)
  have he : stateVectorKetShape ⟨[0], ([] : List CQ)⟩ =
      .error (.overflowError "cannot convert float infinity to integer") := rfl
  rw [he] at h1
  exact absurd h1 (by decide)

/-- C7 amended: `state_vector_ket_shape` raises a validation error iff the
input is not one-dimensional, or its length is positive and not a power of
two (the empty 1-D input instead raises an overflow error); and when it
returns, its output is built from the ket terms of exactly the components
whose 3-decimal rounding is nonzero, so zero-rounded components produce no
ket term. -/
theorem state_vector_ket_shape_error_amended (sv : NDArray) :
    (isValueError (stateVectorKetShape sv) = true ↔
      (sv.shape.length ≠ 1 ∨
        (1 ≤ sv.data.length ∧ ¬ ∃ k, sv.data.length = 2 ^ k))) ∧
    (∀ s, stateVectorKetShape sv = .ok s →
      s = pySlice2 (String.intercalate " "
            (ketTerms sv.data (intLog2 sv.data.length))) ∧
        (ketTerms sv.data (intLog2 sv.data.length)).length =
          (sv.data.filter fun v => decide (roundC 3 v ≠ 0)).length) := by
  obtain ⟨shape, data⟩ := sv
  constructor
  · unfold stateVectorKetShape
    by_cases h1 : shape.length ≠ 1
    · rw [if_pos h1]
      simp [isValueError, h1]
    · rw [if_neg h1]
      push_neg at h1
      by_cases h2 : data.length = 0
      · rw [if_pos h2]
        simp [isValueError, h1, h2]
      · rw [if_neg h2]
        dsimp only
        by_cases h3 : 2 ^ intLog2 data.length ≠ data.length
        · rw [if_pos h3]
          simp only [isValueError, h1, true_iff, ne_eq, not_true_eq_false,
            false_or]
          refine ⟨by omega, ?_⟩
          rintro ⟨k, hk⟩
          exact h3 (by rw [hk, intLog2_two_pow])
        · rw [if_neg h3]
          push_neg at h3
          simp only [isValueError, h1, ne_eq, not_true_eq_false, false_or]
          exact ⟨fun hF => absurd hF (by simp),
            fun hr => (hr.2 ⟨intLog2 data.length, h3.symm⟩).elim⟩
  · intro s hs
    unfold stateVectorKetShape at hs
    by_cases h1 : shape.length ≠ 1
    · rw [if_pos h1] at hs
      exact absurd hs (by simp)
    · rw [if_neg h1] at hs
      by_cases h2 : data.length = 0
      · rw [if_pos h2] at hs
        exact absurd hs (by simp)
      · rw [if_neg h2] at hs
        dsimp only at hs
        by_cases h3 : 2 ^ intLog2 data.length ≠ data.length
        · rw [if_pos h3] at hs
          exact absurd hs (by simp)
        · rw [if_neg h3] at hs
          exact ⟨(Except.ok.inj hs).symm, ketTerms_length data _⟩

/-- Witness for C7 (amended): at the 2-qubit basis state the returned
string is the joined, sign-stripped ket-term list, and the term count
equals the count of nonzero-rounded components. -/
theorem state_vector_ket_shape_error_amended_witness :
    "|00⟩" = pySlice2 (String.intercalate " "
        (ketTerms [⟨1, 0⟩, 0, 0, 0] (intLog2 ([⟨1, 0⟩, 0, 0, 0] : List CQ).length))) ∧
      (ketTerms [⟨1, 0⟩, 0, 0, 0] (intLog2 ([⟨1, 0⟩, 0, 0, 0] : List CQ).length)).length =
        (([⟨1, 0⟩, 0, 0, 0] : List CQ).filter fun v => decide (roundC 3 v ≠ 0)).length :=
  (state_vector_ket_shape_error_amended ⟨[4], [⟨1, 0⟩, 0, 0, 0]⟩).2 "|00⟩" svks_basis_eval

theorem cleanElement_intCast (d : ℕ) (k : ℤ) :
    cleanElement d ⟨(k : ℚ), 0⟩ = toString k := by
  simp [cleanElement, qRound_intCast, qRound_zero, Rat.den_intCast, Rat.num_intCast]

/-- C9: `clean_1D_array` defaults to 7-decimal rounding, drops components
that round to zero (a zero imaginary part leaves the element rendered as
its real part alone; a zero real part with nonzero imaginary part leaves
the imaginary part alone), renders integer-valued elements without a
decimal point, and on `[1.0, 2.0, 3.0]` yields `"[1, 2, 3]"`. -/
theorem clean_1D_array_rounding :
    cleanOneDArrayDefault [⟨1, 0⟩, ⟨2, 0⟩, ⟨3, 0⟩] = "[1, 2, 3]" ∧
    (∀ l, cleanOneDArrayDefault l = cleanOneDArray 7 l) ∧
    (∀ z : CQ, qRound 7 z.im = 0 → cleanElement 7 z = cleanElement 7 ⟨z.re, 0⟩) ∧
    (∀ z : CQ, qRound 7 z.re = 0 → qRound 7 z.im ≠ 0 →
      cleanElement 7 z = cleanElement 7 ⟨0, z.im⟩) ∧
    (∀ (z : CQ) (k : ℤ), qRound 7 z.re = (k : ℚ) → qRound 7 z.im = 0 →
      cleanElement 7 z = toString k) := by
  refine ⟨?_, fun l => rfl, fun z h => ?_, fun z h1 h2 => ?_, fun z k h1 h2 => ?_⟩
  · have h1 := cleanElement_intCast 7 1
    have h2 := cleanElement_intCast 7 2
    have h3 := cleanElement_intCast 7 3
    push_cast at h1 h2 h3
    simp [cleanOneDArrayDefault, cleanOneDArray, h1, h2, h3]
    rfl
  · simp [cleanElement, h, qRound_zero]
  · simp [cleanElement, h1, h2, qRound_zero]
  · simp [cleanElement, h1, h2, Rat.den_intCast, Rat.num_intCast]

/-- Witness for C9: the integer-valued element `5` renders as `"5"`. -/
theorem clean_1D_array_rounding_witness :
    cleanElement 7 ⟨5, 0⟩ = toString (5 : ℤ) :=
  clean_1D_array_rounding.2.2.2.2 ⟨5, 0⟩ 5
    (by
      have h := qRound_intCast 7 5
      push_cast at h ⊢
      exact h)
    (qRound_zero 7)

/-- C5: `replace_custom_gate` returns the transpiled circuit and its
global phase on success; on a `TwoQubitWeylDecomposition` failure it
substitutes the closest unitary and retries exactly once, its result then
being exactly the retry's result; any other failure propagates unchanged. -/
theorem replace_custom_gate_control_flow {α : Type} (env : DecompEnv α) (u : α) :
    (∀ t, env.transp u = .ok t → replaceCustomGate env u = .ok (t, t.globalPhase)) ∧
    (∀ e, env.transp u = .error e →
      pyContains e.msg "TwoQubitWeylDecomposition" = true →
      replaceCustomGate env u =
        (env.transp (env.closest_unitary u)).map fun t => (t, t.globalPhase)) ∧
    (∀ e, env.transp u = .error e →
      pyContains e.msg "TwoQubitWeylDecomposition" = false →
      replaceCustomGate env u = .error e) := by
  refine ⟨fun t ht => ?_, fun e he hw => ?_, fun e he hw => ?_⟩
  · unfold replaceCustomGate
    rw [ht]
  · unfold replaceCustomGate
    rw [he]
    simp only [hw, if_true]
    cases h2 : env.transp (env.closest_unitary u) <;> simp [Except.map]
  · unfold replaceCustomGate
    rw [he]
    simp [hw]

/-- Witness for C5: on the singular failure the result is exactly the
retry's result on the substituted operand. -/
theorem replace_custom_gate_control_flow_witness :
    replaceCustomGate weylEnv 0 =
      (weylEnv.transp (weylEnv.closest_unitary 0)).map fun t => (t, t.globalPhase) :=
  (replace_custom_gate_control_flow weylEnv 0).2.1
    ⟨"Error in TwoQubitWeylDecomposition fidelity check"⟩ rfl (by decide)
